import Mathlib

set_option maxRecDepth 8000
set_option linter.unusedVariables false

/-!
Shallow embedding of the linsk VM SSH bootstrap code (src/vm/ssh.go) and the
qemucli key/value argument model. Bytes are modelled as `Nat` values below
256 (`List Nat` for byte strings) and console text as `List Char`.
-/

namespace Linsk

/-- The apostrophe character used by the Go error messages when quoting. -/
def quoteCh : Char := Char.ofNat 39

/-- Wrap a string in single quotes, as `fmt.Errorf` format `'%v'` does. -/
def quoted (s : String) : String := String.singleton quoteCh ++ s ++ String.singleton quoteCh

/-- The six-bit value of a standard base64 alphabet character
(`A`-`Z`, `a`-`z`, `0`-`9`, `+`, `/`); `none` for any other character. -/
def b64Index (c : Char) : Option Nat :=
  if 65 ≤ c.toNat ∧ c.toNat ≤ 90 then some (c.toNat - 65)
  else if 97 ≤ c.toNat ∧ c.toNat ≤ 122 then some (c.toNat - 97 + 26)
  else if 48 ≤ c.toNat ∧ c.toNat ≤ 57 then some (c.toNat - 48 + 52)
  else if c = '+' then some 62
  else if c = '/' then some 63
  else none

/-- Decode base64 characters in four-character quanta with `=` padding, as Go
`encoding/base64` standard (padded, non-strict) decoding does: the input
length must be a multiple of four, and padding may appear only at the very
end, in the forms `xx==` or `xxx=`. -/
def decodeB64Quads : List Char → Option (List Nat)
  | [] => some []
  | c0 :: c1 :: c2 :: c3 :: rest =>
    match b64Index c0, b64Index c1 with
    | some v0, some v1 =>
      if c2 = '=' then
        if c3 = '=' ∧ rest = [] then some [v0 * 4 + v1 / 16] else none
      else
        match b64Index c2 with
        | some v2 =>
          if c3 = '=' then
            if rest = [] then some [v0 * 4 + v1 / 16, v1 % 16 * 16 + v2 / 4] else none
          else
            match b64Index c3 with
            | some v3 =>
              (decodeB64Quads rest).map
                (fun tl => (v0 * 4 + v1 / 16) :: (v1 % 16 * 16 + v2 / 4) :: (v2 % 4 * 64 + v3) :: tl)
            | none => none
        | none => none
    | _, _ => none
  | _ => none

/-- Go `base64.StdEncoding.DecodeString`: carriage returns and newlines are
ignored, then the input is decoded in padded four-character quanta. -/
def decodeBase64Std (s : String) : Option (List Nat) :=
  decodeB64Quads (s.data.filter (fun c => c ≠ Char.ofNat 13 ∧ c ≠ Char.ofNat 10))

/-- Split a character list at every occurrence of the separator, keeping
empty pieces, as Go `strings.Split` does for a single-character separator. -/
def splitOnChar (sep : Char) : List Char → List (List Char)
  | [] => [[]]
  | c :: rest =>
    if c = sep then [] :: splitOnChar sep rest
    else
      match splitOnChar sep rest with
      | [] => [[c]]
      | h :: t => (c :: h) :: t

/-- Go `strings.Split` specialised to the single-character separators the
source uses (`"\n"` and `" "`). -/
def goSplit (s : String) (sep : Char) : List String :=
  (splitOnChar sep s.data).map (fun l => String.mk l)

/-- An SSH public key as the verification callback sees it: its type string
(`key.Type()`) and its marshaled wire bytes (`key.Marshal()`). -/
structure SSHPublicKey where
  keyType : String
  marshaled : List Nat
deriving DecidableEq, Repr

/-- Lookup in the `knownKeysMap` trust table. The table is a list with the
most recent insertion at the front, so taking the first match gives Go map
assignment semantics: a later record for the same type overwrites. -/
def knownKeysLookup (m : List (String × List Nat)) (t : String) : Option (List Nat) :=
  (m.find? (fun p => p.1 = t)).map (fun p => p.2)

/-- One iteration of the `ParseSSHKeyScan` line loop (src/vm/ssh.go, lines
20-36): skip empty lines, require exactly three space-separated fields,
base64-decode the third field, and store the bytes under the second field. -/
def parseKeyScanStep (acc : Except String (List (String × List Nat))) (line : String) :
    Except String (List (String × List Nat)) :=
  match acc with
  | .error e => .error e
  | .ok m =>
    if line.length = 0 then .ok m
    else if (goSplit line ' ').length ≠ 3 then
      .error ("bad split ssh identity string length: want 3, have "
        ++ toString (goSplit line ' ').length)
    else
      match decodeBase64Std ((goSplit line ' ').getD 2 "") with
      | none => .error "decode base64 public key"
      | some b => .ok (((goSplit line ' ').getD 1 "", b) :: m)

/-- The `knownKeysMap` built by `ParseSSHKeyScan` from the key-scan output:
the input is split on newlines and each line is processed in order. -/
def parseSSHKeyScanMap (knownHosts : String) : Except String (List (String × List Nat)) :=
  (goSplit knownHosts '\n').foldl parseKeyScanStep (.ok [])

/-- The host-key verification callback closed over the trust table
(src/vm/ssh.go, lines 38-49). `hostname` and `remote` are the callback
arguments the closure receives but never reads. -/
def hostKeyCallback (m : List (String × List Nat)) (hostname : String) (remote : String)
    (key : SSHPublicKey) : Except String Unit :=
  match knownKeysLookup m key.keyType with
  | none => .error ("unknown key type " ++ quoted key.keyType)
  | some knownKey => if key.marshaled = knownKey then .ok () else .error "public key mismatch"

/-- `ParseSSHKeyScan` itself: parse the scanned records into the trust table
and return the verification callback closed over it. -/
def ParseSSHKeyScan (knownHosts : String) :
    Except String (String → String → SSHPublicKey → Except String Unit) :=
  (parseSSHKeyScanMap knownHosts).map hostKeyCallback

/-! ### Serial exchange loops (sshSetup and scanSSHIdentity) -/

/-- The events the `select` in the serial read loops can observe, in arrival
order: context cancellation, expiry of the read deadline, or a decoded chunk
from the serial stdout channel. -/
inductive SerialEvent where
  | cancelled
  | timeout
  | data (chunk : List Char)
deriving DecidableEq, Repr

/-- The completion sentinel prefix (`SERIAL STATUS: `). -/
def serialStatusMark : List Char := "SERIAL STATUS: ".data

/-- Both serial exchanges set their read deadline to
`time.Now().Add(time.Second * 5)` right after writing the command
(src/vm/ssh.go, lines 60 and 108). -/
def serialDeadlineSeconds : Nat := 5

/-- How `sshSetup` can leave its read loop (src/vm/ssh.go, lines 112-133).
`σ` is the type of the generated SSH signer returned on success. -/
inductive SetupOutcome (σ : Type) where
  | ok (signer : σ)
  | ctxErr
  | timedOut (log : List Char)
  | noStatusCode
  | nonZeroStatus (status : Char) (log : List Char)
deriving DecidableEq, Repr

/-- The `sshSetup` read loop (src/vm/ssh.go, lines 112-133): every chunk is
written into the diagnostic log buffer; a chunk starting with the sentinel
prefix resolves the exchange; a `none` result means no received event
resolved the loop. -/
def sshSetupLoop {σ : Type} (signer : σ) (log : List Char) :
    List SerialEvent → Option (SetupOutcome σ)
  | [] => none
  | .cancelled :: _ => some .ctxErr
  | .timeout :: _ => some (.timedOut log)
  | .data d :: rest =>
    if serialStatusMark.isPrefixOf d then
      if d.length = serialStatusMark.length then some .noStatusCode
      else if d.getD serialStatusMark.length ' ' ≠ '0' then
        some (.nonZeroStatus (d.getD serialStatusMark.length ' ') (log ++ d))
      else some (.ok signer)
    else sshSetupLoop signer (log ++ d) rest

/-- Modelled from the spec: `getLogErrMsg` (not under src/) renders the
accumulated console log into the diagnostic fragment appended to failure
messages ("surfaced with the accumulated log for diagnosis"). -/
def getLogErrMsg (log : List Char) : String :=
  "(log: " ++ String.mk log ++ ")"

/-- The error message `sshSetup` produces for each failure outcome, as built
by its `fmt.Errorf` calls; `none` for success and for context cancellation
(there the error value comes from the external `ctx.Err()`). -/
def setupOutcomeMessage {σ : Type} : SetupOutcome σ → Option String
  | .ok _ => none
  | .ctxErr => none
  | .timedOut log => some ("setup command timed out " ++ getLogErrMsg log)
  | .noStatusCode => some "setup command status code did not show up"
  | .nonZeroStatus c log =>
    some ("non-zero setup command status code: " ++ quoted (String.singleton c) ++ " "
      ++ getLogErrMsg log)

/-- How `scanSSHIdentity` can leave its read loop (src/vm/ssh.go, lines
64-90). Success carries the accumulated key-scan bytes. -/
inductive ScanOutcome where
  | ok (out : List Char)
  | ctxErr
  | timedOut
  | noStatusCode
  | nonZeroStatus (status : Char)
deriving DecidableEq, Repr

/-- The `scanSSHIdentity` read loop (src/vm/ssh.go, lines 64-90): empty
chunks are skipped, a sentinel-prefixed chunk resolves the exchange, and of
the remaining chunks only those whose first byte is the delimiter
are appended to the result buffer. -/
def scanSSHIdentityLoop (acc : List Char) : List SerialEvent → Option ScanOutcome
  | [] => none
  | .cancelled :: _ => some .ctxErr
  | .timeout :: _ => some .timedOut
  | .data d :: rest =>
    if d.length = 0 then scanSSHIdentityLoop acc rest
    else if serialStatusMark.isPrefixOf d then
      if d.length = serialStatusMark.length then some .noStatusCode
      else if d.getD serialStatusMark.length ' ' ≠ '0' then
        some (.nonZeroStatus (d.getD serialStatusMark.length ' '))
      else some (.ok acc)
    else if d.headD ' ' = '|' then scanSSHIdentityLoop (acc ++ d) rest
    else scanSSHIdentityLoop acc rest

/-- The success sentinel chunk: the prefix followed by status character `0`. -/
def okStatusChunk : List Char := serialStatusMark ++ ['0']

/-- The bytes `scanSSHIdentity` retains from a chunk sequence: the
concatenation, in arrival order, of the chunks whose first byte is the
delimiter bar. -/
def pipedChunks (chunks : List (List Char)) : List Char :=
  (chunks.filter (fun d => d.headD ' ' = '|')).flatten

/-! ### qemucli key/value argument model -/

/-- The kinds of value an argument key accepts (`ArgAcceptedValue`). -/
inductive ArgAcceptedValue where
  | valueNone
  | valueKeyValue
deriving DecidableEq, Repr

/-- One `key=value` item of a key/value argument (`KeyValueArgItem`). -/
structure KeyValueArgItem where
  key : String
  value : String
deriving DecidableEq, Repr

/-- A validated key/value argument (`KeyValueArg`): the top-level key and the
copied item sequence. -/
structure KeyValueArg where
  key : String
  items : List KeyValueArgItem
deriving DecidableEq, Repr

/-- Modelled from the spec: the conservative character allowlist backing
`validateArgStrValue` (not under src/) — keys and values must not contain
characters capable of breaking the argument syntax (no comma, no equals
sign, no whitespace, no quoting characters); letters, digits and a few safe
punctuation characters pass. -/
def validArgChar (c : Char) : Bool :=
  c.isAlpha || c.isDigit || c = '-' || c = '_' || c = '.' || c = '/' || c = ':'

/-- Modelled from the spec: `validateArgStrValue` (not under src/) accepts a
string exactly when every character passes the shared allowlist. -/
def validateArgStrValue (s : String) : Bool :=
  s.data.all validArgChar

/-- Modelled from the spec: `validateArgKey` (not under src/) applies the
same shared allowlist to the argument key, parameterized by the expected
value type. -/
def validateArgKey (key : String) (vt : ArgAcceptedValue) : Except String Unit :=
  if validateArgStrValue key then .ok () else .error ("invalid arg key " ++ quoted key)

/-- The item loop of `NewKeyValueArg` (src/vm/ssh.go embedded qemucli file,
lines 214-242): reject an empty key, an empty value, or a key or value with
a disallowed character; otherwise copy the item into the new slice. -/
def checkItems : List KeyValueArgItem → Except String (List KeyValueArgItem)
  | [] => .ok []
  | it :: rest =>
    if it.key.length = 0 then .error "empty key not allowed"
    else if it.value.length = 0 then
      .error ("empty value for key " ++ quoted it.key ++ " is not allowed")
    else if !validateArgStrValue it.key then .error ("validate key " ++ quoted it.key)
    else if !validateArgStrValue it.value then
      .error ("validate map value " ++ quoted it.value)
    else (checkItems rest).map (fun tl => it :: tl)

/-- `NewKeyValueArg` (embedded qemucli file, lines 199-245): validate the
top-level key, then validate and copy every item; only a fully valid
argument is ever returned. -/
def NewKeyValueArg (key : String) (items : List KeyValueArgItem) : Except String KeyValueArg :=
  match validateArgKey key ArgAcceptedValue.valueKeyValue with
  | .error e => .error ("validate arg key: " ++ e)
  | .ok _ =>
    match checkItems items with
    | .error e => .error e
    | .ok copied => .ok { key := key, items := copied }

/-- The rendering loop of `KeyValueArg.StringValue` (embedded qemucli file,
lines 251-277): `i` is the index in the stored item slice; a blank key is
skipped defensively; a comma is written before every item of nonzero index;
the value is appended as `=value` only when nonempty. -/
def stringValueAux : Nat → List KeyValueArgItem → String
  | _, [] => ""
  | i, it :: rest =>
    if it.key = "" then stringValueAux (i + 1) rest
    else
      (if i ≠ 0 then "," else "") ++ it.key
        ++ (if 0 < it.value.length then "=" ++ it.value else "")
        ++ stringValueAux (i + 1) rest

/-- `KeyValueArg.StringValue`: render the stored items. -/
def KeyValueArg.StringValue (a : KeyValueArg) : String :=
  stringValueAux 0 a.items

/-- One item in the comma-joined form: `key=value`, or `key` alone when the
value is empty. -/
def renderItem (it : KeyValueArgItem) : String :=
  if it.value = "" then it.key else it.key ++ "=" ++ it.value

/-- The comma-joined form of an item sequence in its original order. -/
def commaJoin : List KeyValueArgItem → String
  | [] => ""
  | [it] => renderItem it
  | it :: rest => renderItem it ++ "," ++ commaJoin rest

/-! ### runSSHCmd -/

/-- The observable behaviour of one SSH session for `runSSHCmd`: the bytes
the remote command writes to the bound stdout buffer, the text it writes to
the bound stderr buffer, and whether `sess.Run` returns an error. -/
structure SSHSessionBehavior where
  stdoutData : List Nat
  stderrText : String
  runError : Option String
deriving DecidableEq, Repr

/-- The observable behaviour of the SSH client for one `runSSHCmd` call:
whether `NewSession` fails, and the session behaviour otherwise. -/
structure SSHClientBehavior where
  newSessionError : Option String
  session : SSHSessionBehavior
deriving DecidableEq, Repr

/-- Modelled from the spec: `wrapErrWithLog` (not under src/) wraps an
underlying error with an operation message and the captured error-stream
text, so the caller sees why a remote command failed. -/
def wrapErrWithLog (err : String) (msg : String) (log : String) : String :=
  msg ++ ": " ++ err ++ " (log: " ++ log ++ ")"

/-- `runSSHCmd` (src/vm/ssh.go, lines 150-170): open a session, bind stdout
and stderr buffers, run the command; on failure wrap the underlying error
with the captured stderr text, on success return the stdout bytes. -/
def runSSHCmd (c : SSHClientBehavior) (cmd : String) : Except String (List Nat) :=
  match c.newSessionError with
  | some e => .error ("create new vm ssh session: " ++ e)
  | none =>
    match c.session.runError with
    | some e => .error (wrapErrWithLog e "run cmd" c.session.stderrText)
    | none => .ok c.session.stdoutData

/-! ### Lemmas about the key-scan parser -/

/-- An error accumulator is preserved by the rest of the line fold. -/
theorem foldl_parse_error (lines : List String) (e : String) :
    lines.foldl parseKeyScanStep (.error e) = .error e := by
  induction lines with
  | nil => rfl
  | cons l ls ih => exact ih

/-- What it means for an input line to contribute a record `(t, b)` to the
trust table: the line is nonempty, splits into exactly three fields, its
second field is `t` and its third decodes to `b`. -/
def lineYields (line : String) (t : String) (b : List Nat) : Prop :=
  line.length ≠ 0 ∧ (goSplit line ' ').length = 3 ∧
    (goSplit line ' ').getD 1 "" = t ∧ decodeBase64Std ((goSplit line ' ').getD 2 "") = some b

/-- Every entry of a successfully built trust table comes from the initial
accumulator or from some processed line. -/
theorem parse_mem_of_ok (lines : List String) :
    ∀ (m0 m : List (String × List Nat)),
      lines.foldl parseKeyScanStep (.ok m0) = .ok m →
      ∀ p ∈ m, p ∈ m0 ∨ ∃ line ∈ lines, lineYields line p.1 p.2 := by
  induction lines with
  | nil =>
    intro m0 m h p hp
    injection h with h
    subst h
    exact Or.inl hp
  | cons l ls ih =>
    intro m0 m h p hp
    rw [List.foldl_cons] at h
    cases hstep : parseKeyScanStep (.ok m0) l with
    | error e =>
      rw [hstep, foldl_parse_error] at h
      exact absurd h (by simp)
    | ok m1 =>
      rw [hstep] at h
      rcases ih m1 m h p hp with hm1 | ⟨line, hline, hy⟩
      · simp only [parseKeyScanStep] at hstep
        split at hstep
        · injection hstep with hstep
          subst hstep
          exact Or.inl hm1
        · split at hstep
          · exact absurd hstep (by simp)
          · rename_i hne h3
            split at hstep
            · exact absurd hstep (by simp)
            · rename_i b hdec
              injection hstep with hstep
              subst hstep
              rcases List.mem_cons.mp hm1 with rfl | hm0
              · refine Or.inr ⟨l, List.mem_cons_self .., ?_, ?_, rfl, hdec⟩
                · exact hne
                · exact of_not_not h3
              · exact Or.inl hm0
      · exact Or.inr ⟨line, List.mem_cons_of_mem _ hline, hy⟩

/-- A malformed line: nonempty, and either the field count is not three or
the third field is not valid standard base64. -/
def badLine (line : String) : Prop :=
  line.length ≠ 0 ∧
    ((goSplit line ' ').length ≠ 3 ∨ decodeBase64Std ((goSplit line ' ').getD 2 "") = none)

/-- Processing a malformed line from a healthy accumulator yields an error. -/
theorem parseKeyScanStep_bad (m : List (String × List Nat)) (line : String)
    (hb : badLine line) : ∃ e, parseKeyScanStep (.ok m) line = .error e := by
  obtain ⟨h0, hbad⟩ := hb
  simp only [parseKeyScanStep]
  rw [if_neg h0]
  by_cases h3 : (goSplit line ' ').length ≠ 3
  · rw [if_pos h3]
    exact ⟨_, rfl⟩
  · rw [if_neg h3]
    rcases hbad with hc | hdec
    · exact absurd hc h3
    · rw [hdec]
      exact ⟨_, rfl⟩

/-- If any line of the input is malformed, the whole fold fails. -/
theorem foldl_parse_bad (lines : List String) :
    ∀ (m0 : List (String × List Nat)), (∃ line ∈ lines, badLine line) →
      ∃ e, lines.foldl parseKeyScanStep (.ok m0) = .error e := by
  induction lines with
  | nil =>
    rintro m0 ⟨l, hl, _⟩
    exact absurd hl (List.not_mem_nil l)
  | cons l ls ih =>
    rintro m0 ⟨l2, hl2, hbad⟩
    rcases List.mem_cons.mp hl2 with rfl | hmem
    · obtain ⟨e, he⟩ := parseKeyScanStep_bad m0 l2 hbad
      exact ⟨e, by rw [List.foldl_cons, he, foldl_parse_error]⟩
    · cases hstep : parseKeyScanStep (.ok m0) l with
      | error e => exact ⟨e, by rw [List.foldl_cons, hstep, foldl_parse_error]⟩
      | ok m1 =>
        obtain ⟨e, he⟩ := ih m1 ⟨l2, hmem, hbad⟩
        exact ⟨e, by rw [List.foldl_cons, hstep]; exact he⟩

/-! ### Claims about ParseSSHKeyScan -/

/-- Claim C1: the verification callback returned by `ParseSSHKeyScan` fails
closed — for any parsed input a presented key is accepted only if some
scanned record had that exact key type and its base64-decoded bytes equal
the presented key's marshaled bytes byte-for-byte; and concretely, parsing
`example 1 QUJD` yields a callback that accepts a key of type `1` with
marshaled bytes `ABC` (65, 66, 67), rejects any key of type `2` with an
unknown-key-type error, and rejects a key of type `1` with different bytes
with a public-key-mismatch error. -/
theorem C1_callback_fails_closed :
    (∀ input m hostname remote key,
        parseSSHKeyScanMap input = .ok m →
        hostKeyCallback m hostname remote key = .ok () →
        ∃ line ∈ goSplit input '\n', lineYields line key.keyType key.marshaled)
    ∧ (∀ hostname remote,
        ParseSSHKeyScan "example 1 QUJD" = .ok (hostKeyCallback [("1", [65, 66, 67])])
        ∧ hostKeyCallback [("1", [65, 66, 67])] hostname remote ⟨"1", [65, 66, 67]⟩ = .ok ()
        ∧ (∀ bytes, hostKeyCallback [("1", [65, 66, 67])] hostname remote ⟨"2", bytes⟩ =
            .error ("unknown key type " ++ quoted "2"))
        ∧ (∀ bytes, bytes ≠ [65, 66, 67] →
            hostKeyCallback [("1", [65, 66, 67])] hostname remote ⟨"1", bytes⟩ =
              .error "public key mismatch")) := by
  constructor
  · intro input m hostname remote key hparse hok
    simp only [hostKeyCallback] at hok
    split at hok
    · exact absurd hok (by simp)
    · rename_i knownKey hlook
      have heq : key.marshaled = knownKey := by
        by_contra hne
        rw [if_neg hne] at hok
        exact absurd hok (by simp)
      simp only [knownKeysLookup, Option.map_eq_some'] at hlook
      obtain ⟨p, hfind, hp2⟩ := hlook
      have hmem := List.mem_of_find?_eq_some hfind
      have hp1 : p.1 = key.keyType := by
        have h2 := List.find?_some hfind
        exact of_decide_eq_true h2
      rcases parse_mem_of_ok (goSplit input '\n') [] m hparse p hmem with hnil | ⟨line, hl, hy⟩
      · exact absurd hnil (List.not_mem_nil p)
      · refine ⟨line, hl, ?_⟩
        rw [← hp1, heq, ← hp2]
        exact hy
  · intro hostname remote
    refine ⟨rfl, rfl, fun bytes => rfl, fun bytes hne => ?_⟩
    show (if bytes = [65, 66, 67] then Except.ok () else Except.error "public key mismatch")
      = Except.error "public key mismatch"
    rw [if_neg hne]

/-- Witness for C1 at the concrete spec input: the accepted key of type `1`
with bytes `ABC` really traces back to a scanned record. -/
theorem C1_witness :
    parseSSHKeyScanMap "example 1 QUJD" = .ok [("1", [65, 66, 67])]
    ∧ hostKeyCallback [("1", [65, 66, 67])] "localhost" "127.0.0.1:22"
        ⟨"1", [65, 66, 67]⟩ = .ok ()
    ∧ ∃ line ∈ goSplit "example 1 QUJD" '\n',
        lineYields line "1" [65, 66, 67] :=
  ⟨rfl, rfl,
    C1_callback_fails_closed.1 "example 1 QUJD" [("1", [65, 66, 67])] "localhost"
      "127.0.0.1:22" ⟨"1", [65, 66, 67]⟩ rfl rfl⟩

/-- Claim C4: `ParseSSHKeyScan` fails hard on malformed input with no
partially built trust table — any input containing a nonempty line that does
not split on spaces into exactly three fields, or whose third field is not
valid standard base64, yields an error and no callback. -/
theorem C4_malformed_input_fails (input line : String)
    (hmem : line ∈ goSplit input '\n') (h0 : line.length ≠ 0)
    (hbad : (goSplit line ' ').length ≠ 3
      ∨ decodeBase64Std ((goSplit line ' ').getD 2 "") = none) :
    ∃ e, parseSSHKeyScanMap input = .error e ∧ ParseSSHKeyScan input = .error e := by
  obtain ⟨e, he⟩ := foldl_parse_bad (goSplit input '\n') [] ⟨line, hmem, h0, hbad⟩
  refine ⟨e, he, ?_⟩
  simp only [ParseSSHKeyScan, parseSSHKeyScanMap]
  rw [he]
  rfl

/-- Witness for C4: the spec's two-field record `example 1` is rejected. -/
theorem C4_witness :
    ∃ e, parseSSHKeyScanMap "example 1" = .error e
      ∧ ParseSSHKeyScan "example 1" = .error e :=
  C4_malformed_input_fails "example 1" "example 1" (by decide) (by decide) (by decide)

/-- Claim C9: the callback's verdict depends only on the presented key's
type string and marshaled bytes — the hostname and remote address arguments
are never consulted. -/
theorem C9_callback_ignores_endpoint
    (m : List (String × List Nat)) (h1 r1 h2 r2 : String) (key : SSHPublicKey) :
    hostKeyCallback m h1 r1 key = hostKeyCallback m h2 r2 key := rfl

/-- Claim C10: `ParseSSHKeyScan` silently skips empty lines (a trailing
newline is accepted), and when several well-formed records share a key-type
token the trust table resolves that type to the decoded bytes of the last
such record, so the callback accepts only the last record's bytes and
rejects those of the earlier record. -/
theorem C10_empty_lines_and_last_record_wins :
    parseSSHKeyScanMap "example 1 QUJD\n" = .ok [("1", [65, 66, 67])]
    ∧ (∀ m, parseKeyScanStep (.ok m) "" = .ok m)
    ∧ parseSSHKeyScanMap "a 1 QUJD\nb 1 QQ==" = .ok [("1", [65]), ("1", [65, 66, 67])]
    ∧ knownKeysLookup [("1", [65]), ("1", [65, 66, 67])] "1" = some [65]
    ∧ (∀ hostname remote,
        hostKeyCallback [("1", [65]), ("1", [65, 66, 67])] hostname remote ⟨"1", [65]⟩ = .ok ()
        ∧ hostKeyCallback [("1", [65]), ("1", [65, 66, 67])] hostname remote
            ⟨"1", [65, 66, 67]⟩ = .error "public key mismatch") :=
  ⟨rfl, fun m => rfl, rfl, rfl, fun hostname remote => ⟨rfl, rfl⟩⟩

/-! ### Lemmas about the serial read loops -/

/-- Non-sentinel chunks only accumulate into the `sshSetup` log buffer. -/
theorem sshSetupLoop_data_accum {σ : Type} (signer : σ) :
    ∀ (chunks : List (List Char)) (log : List Char) (rest : List SerialEvent),
      (∀ d ∈ chunks, ¬ serialStatusMark.isPrefixOf d) →
      sshSetupLoop signer log (chunks.map .data ++ rest)
        = sshSetupLoop signer (log ++ chunks.flatten) rest := by
  intro chunks
  induction chunks with
  | nil => intro log rest h; simp
  | cons d ds ih =>
    intro log rest h
    have hd : ¬ serialStatusMark.isPrefixOf d := h d (List.mem_cons_self ..)
    simp only [List.map_cons, List.cons_append, sshSetupLoop, if_neg hd, List.append_eq]
    rw [ih (log ++ d) rest (fun x hx => h x (List.mem_cons_of_mem _ hx))]
    simp [List.append_assoc]

/-- Unfolding the retained bytes over the first chunk. -/
theorem pipedChunks_cons (d : List Char) (ds : List (List Char)) :
    pipedChunks (d :: ds) = (if d.headD ' ' = '|' then d else []) ++ pipedChunks ds := by
  by_cases hbar : d.headD ' ' = '|'
  · rw [if_pos hbar]
    simp only [pipedChunks, List.filter_cons, hbar, decide_True, if_true, List.flatten_cons]
  · rw [if_neg hbar]
    simp only [pipedChunks, List.filter_cons, decide_eq_true_eq, if_neg hbar, List.nil_append]

/-- Non-sentinel chunks only feed the `scanSSHIdentity` result accumulator,
and only when they start with the delimiter bar. -/
theorem scanSSHIdentityLoop_data_accum :
    ∀ (chunks : List (List Char)) (acc : List Char) (rest : List SerialEvent),
      (∀ d ∈ chunks, ¬ serialStatusMark.isPrefixOf d) →
      scanSSHIdentityLoop acc (chunks.map .data ++ rest)
        = scanSSHIdentityLoop (acc ++ pipedChunks chunks) rest := by
  intro chunks
  induction chunks with
  | nil => intro acc rest h; simp [pipedChunks]
  | cons d ds ih =>
    intro acc rest h
    have hd : ¬ serialStatusMark.isPrefixOf d := h d (List.mem_cons_self ..)
    have hrest : ∀ x ∈ ds, ¬ serialStatusMark.isPrefixOf x :=
      fun x hx => h x (List.mem_cons_of_mem _ hx)
    by_cases h0 : d.length = 0
    · have hdnil : d = [] := List.length_eq_zero.mp h0
      subst hdnil
      simp only [List.map_cons, List.cons_append, scanSSHIdentityLoop, if_pos rfl,
        List.append_eq]
      rw [ih acc rest hrest, pipedChunks_cons]
      norm_num
    · simp only [List.map_cons, List.cons_append, scanSSHIdentityLoop, if_neg h0, if_neg hd,
        List.append_eq]
      by_cases hbar : d.headD ' ' = '|'
      · rw [if_pos hbar, ih (acc ++ d) rest hrest, pipedChunks_cons, if_pos hbar,
          ← List.append_assoc]
      · rw [if_neg hbar, ih acc rest hrest, pipedChunks_cons, if_neg hbar, List.nil_append]

/-- Whether a log is embedded, as a contiguous run, in a message. -/
def embedsLog (msg : String) (log : List Char) : Prop :=
  ∃ a b, msg.data = a ++ log ++ b

/-- A message of the shape `pre ++ getLogErrMsg log` embeds the log. -/
theorem embedsLog_of_getLogErrMsg (pre : String) (log : List Char) :
    embedsLog (pre ++ getLogErrMsg log) log := by
  refine ⟨(pre ++ "(log: ").data, ")".data, ?_⟩
  simp [getLogErrMsg, String.data_append, List.append_assoc]

/-! ### Claims about the serial exchanges -/

/-- Counterexample to claim C2 as stated: on a chunk that is exactly the
sentinel prefix, `sshSetup` returns the fixed no-status-code error, which is
the same outcome with the same fixed message whatever the accumulated log
is — it is not surfaced with the accumulated log. -/
theorem C2_counterexample :
    sshSetupLoop () "BOOT".data [.data serialStatusMark] = some SetupOutcome.noStatusCode
    ∧ sshSetupLoop () "OTHER LOG".data [.data serialStatusMark]
        = sshSetupLoop () "BOOT".data [.data serialStatusMark]
    ∧ setupOutcomeMessage (SetupOutcome.noStatusCode : SetupOutcome Unit)
        = some "setup command status code did not show up"
    ∧ ¬ embedsLog "setup command status code did not show up" "BOOT".data := by
  refine ⟨rfl, rfl, rfl, ?_⟩
  intro ⟨a, b, hab⟩
  have : "BOOT".data <:+: "setup command status code did not show up".data := ⟨a, b, hab.symm⟩
  revert this
  decide

/-- Claim C2 as amended: in the `sshSetup` read loop a sentinel-prefixed
chunk completes the exchange — status character `0` returns the generated
signer with no error; any other status character returns an error whose
message embeds the accumulated console log (including this chunk); and a
chunk exactly equal to the prefix yields its own distinct failure error,
carrying a fixed message without the accumulated log. -/
theorem C2_amended_sentinel_resolution {σ : Type} (signer : σ) (log d : List Char)
    (rest : List SerialEvent) (hpre : serialStatusMark.isPrefixOf d) :
    (d.length = serialStatusMark.length →
      sshSetupLoop signer log (.data d :: rest) = some .noStatusCode)
    ∧ (d.length ≠ serialStatusMark.length → d.getD serialStatusMark.length ' ' = '0' →
      sshSetupLoop signer log (.data d :: rest) = some (.ok signer))
    ∧ (∀ c, d.length ≠ serialStatusMark.length → d.getD serialStatusMark.length ' ' = c →
        c ≠ '0' →
        sshSetupLoop signer log (.data d :: rest) = some (.nonZeroStatus c (log ++ d))
        ∧ embedsLog
            (((setupOutcomeMessage (SetupOutcome.nonZeroStatus c (log ++ d) : SetupOutcome σ)).getD
              "")) (log ++ d))
    ∧ (∀ c lg, (SetupOutcome.noStatusCode : SetupOutcome σ) ≠ .nonZeroStatus c lg)
    ∧ setupOutcomeMessage (SetupOutcome.noStatusCode : SetupOutcome σ)
        = some "setup command status code did not show up" := by
  refine ⟨?_, ?_, ?_, fun c lg => by simp, rfl⟩
  · intro hlen
    simp only [sshSetupLoop, if_pos hpre, if_pos hlen]
  · intro hlen h0
    simp only [sshSetupLoop, if_pos hpre, if_neg hlen]
    rw [if_neg (fun hc => hc h0)]
  · intro c hlen hc hcne
    constructor
    · simp only [sshSetupLoop, if_pos hpre, if_neg hlen]
      rw [if_pos (by rw [hc]; exact hcne), hc]
    · exact embedsLog_of_getLogErrMsg _ (log ++ d)

/-- Witness for the amended C2: a concrete chunk `SERIAL STATUS: 1` yields
the non-zero-status outcome and its message embeds the accumulated log. -/
theorem C2_amended_witness :
    sshSetupLoop () "L".data [.data (serialStatusMark ++ ['1'])]
      = some (.nonZeroStatus '1' ("L".data ++ (serialStatusMark ++ ['1'])))
    ∧ embedsLog
        ((setupOutcomeMessage
          (SetupOutcome.nonZeroStatus '1' ("L".data ++ (serialStatusMark ++ ['1']))
            : SetupOutcome Unit)).getD "")
        ("L".data ++ (serialStatusMark ++ ['1'])) :=
  (C2_amended_sentinel_resolution () "L".data (serialStatusMark ++ ['1']) []
    (by decide)).2.2.1 '1' (by decide) (by decide) (by decide)

/-- Claim C3: both serial exchanges race the read loop against context
cancellation and the fixed five-second deadline started when the command was
written — cancellation returns the context's own outcome immediately; if no
sentinel chunk arrives before the deadline fires, a timeout outcome distinct
from the cancellation outcome is returned, in the bootstrap case embedding
the log captured so far. -/
theorem C3_cancellation_and_deadline :
    serialDeadlineSeconds = 5
    ∧ (∀ (σ : Type) (signer : σ) (log : List Char) (rest : List SerialEvent),
        sshSetupLoop signer log (.cancelled :: rest) = some .ctxErr)
    ∧ (∀ (σ : Type) (signer : σ) (log : List Char) (chunks : List (List Char))
        (rest : List SerialEvent),
        (∀ d ∈ chunks, ¬ serialStatusMark.isPrefixOf d) →
        sshSetupLoop signer log (chunks.map .data ++ .timeout :: rest)
          = some (.timedOut (log ++ chunks.flatten)))
    ∧ (∀ (σ : Type) (log : List Char), (SetupOutcome.timedOut log : SetupOutcome σ) ≠ .ctxErr)
    ∧ (∀ (σ : Type) (log : List Char),
        embedsLog
          ((setupOutcomeMessage (SetupOutcome.timedOut log : SetupOutcome σ)).getD "") log)
    ∧ (∀ (acc : List Char) (rest : List SerialEvent),
        scanSSHIdentityLoop acc (.cancelled :: rest) = some .ctxErr)
    ∧ (∀ (acc : List Char) (chunks : List (List Char)) (rest : List SerialEvent),
        (∀ d ∈ chunks, ¬ serialStatusMark.isPrefixOf d) →
        scanSSHIdentityLoop acc (chunks.map .data ++ .timeout :: rest) = some .timedOut)
    ∧ ScanOutcome.timedOut ≠ ScanOutcome.ctxErr := by
  refine ⟨rfl, fun σ signer log rest => rfl, ?_, fun σ log => by simp, ?_,
    fun acc rest => rfl, ?_, by simp⟩
  · intro σ signer log chunks rest h
    rw [sshSetupLoop_data_accum signer chunks log _ h]
    rfl
  · intro σ log
    exact embedsLog_of_getLogErrMsg _ log
  · intro acc chunks rest h
    rw [scanSSHIdentityLoop_data_accum chunks acc _ h]
    rfl

/-- Witness for C3: concretely, a non-sentinel chunk followed by deadline
expiry times out with the accumulated log in `sshSetup`, and times out in
`scanSSHIdentity`; cancellation resolves immediately. -/
theorem C3_witness :
    sshSetupLoop () "A".data ([SerialEvent.data "B".data] ++ SerialEvent.timeout :: [])
      = some (.timedOut ("A".data ++ ["B".data].flatten))
    ∧ scanSSHIdentityLoop "A".data ([SerialEvent.data "B".data] ++ SerialEvent.timeout :: [])
      = some .timedOut
    ∧ sshSetupLoop () "A".data (.cancelled :: []) = some .ctxErr :=
  ⟨C3_cancellation_and_deadline.2.2.1 Unit () "A".data ["B".data] [] (by decide),
   C3_cancellation_and_deadline.2.2.2.2.2.2.1 "A".data ["B".data] [] (by decide),
   C3_cancellation_and_deadline.2.1 Unit () "A".data []⟩

/-- Claim C7: in `scanSSHIdentity`, only chunks whose first byte is the
delimiter bar are accumulated, and on the success sentinel the function
returns exactly the concatenation, in arrival order, of the delimiter-
prefixed chunks received since the command was written, and nothing else. -/
theorem C7_scan_accumulation (chunks : List (List Char)) (rest : List SerialEvent)
    (h : ∀ d ∈ chunks, ¬ serialStatusMark.isPrefixOf d) :
    scanSSHIdentityLoop [] (chunks.map .data ++ .data okStatusChunk :: rest)
      = some (.ok (pipedChunks chunks)) := by
  rw [scanSSHIdentityLoop_data_accum chunks [] _ h]
  rfl

/-- Witness for C7: two delimiter chunks interleaved with noise and an empty
chunk are concatenated in order; the noise is dropped. -/
theorem C7_witness :
    scanSSHIdentityLoop []
      ([SerialEvent.data "|k1".data, SerialEvent.data "noise".data, SerialEvent.data [],
        SerialEvent.data "|k2".data] ++ SerialEvent.data okStatusChunk :: [])
      = some (.ok (pipedChunks ["|k1".data, "noise".data, [], "|k2".data]))
    ∧ pipedChunks ["|k1".data, "noise".data, [], "|k2".data] = "|k1|k2".data :=
  ⟨C7_scan_accumulation ["|k1".data, "noise".data, [], "|k2".data] [] (by decide), rfl⟩

/-! ### Lemmas about the argument model -/

/-- A string of length zero is the empty string. -/
theorem string_eq_empty_of_length_eq_zero (s : String) (h : s.length = 0) : s = "" := by
  cases s with
  | mk data =>
    cases data with
    | nil => rfl
    | cons c cs => simp [String.length] at h

/-- A nonempty string has positive length. -/
theorem string_length_pos_of_ne_empty (s : String) (h : s ≠ "") : 0 < s.length := by
  cases s with
  | mk data =>
    cases data with
    | nil => exact absurd rfl h
    | cons c cs => simp [String.length]

/-- A successful item check returns an exact copy of the input items, and
every input item then has a nonempty, allowlist-clean key and value. -/
theorem checkItems_ok : ∀ (items copied : List KeyValueArgItem),
    checkItems items = .ok copied →
    copied = items ∧ ∀ it ∈ items,
      it.key ≠ "" ∧ it.value ≠ ""
        ∧ validateArgStrValue it.key = true ∧ validateArgStrValue it.value = true := by
  intro items
  induction items with
  | nil =>
    intro copied h
    injection h with h
    subst h
    exact ⟨rfl, by simp⟩
  | cons it rest ih =>
    intro copied h
    simp only [checkItems] at h
    split at h
    · exact absurd h (by simp)
    · split at h
      · exact absurd h (by simp)
      · split at h
        · exact absurd h (by simp)
        · split at h
          · exact absurd h (by simp)
          · rename_i h1 h2 h3 h4
            cases hrest : checkItems rest with
            | error e => rw [hrest] at h; exact absurd h (by simp [Except.map])
            | ok tl =>
              rw [hrest] at h
              simp only [Except.map] at h
              injection h with h
              subst h
              obtain ⟨htl, hall⟩ := ih tl hrest
              subst htl
              refine ⟨rfl, ?_⟩
              intro x hx
              rcases List.mem_cons.mp hx with rfl | hx2
              · refine ⟨?_, ?_, ?_, ?_⟩
                · intro hk; exact h1 (by rw [hk]; rfl)
                · intro hv; exact h2 (by rw [hv]; rfl)
                · cases hb : validateArgStrValue x.key with
                  | false => exact absurd (by rw [hb]; rfl) h3
                  | true => rfl
                · cases hb : validateArgStrValue x.value with
                  | false => exact absurd (by rw [hb]; rfl) h4
                  | true => rfl
              · exact hall x hx2

/-- A successfully constructed argument stores the given key, an exact copy
of the given items, and every item is nonempty and allowlist-clean. -/
theorem NewKeyValueArg_ok (key : String) (items : List KeyValueArgItem) (a : KeyValueArg)
    (h : NewKeyValueArg key items = .ok a) :
    a.key = key ∧ a.items = items ∧ ∀ it ∈ items,
      it.key ≠ "" ∧ it.value ≠ ""
        ∧ validateArgStrValue it.key = true ∧ validateArgStrValue it.value = true := by
  simp only [NewKeyValueArg] at h
  split at h
  · exact absurd h (by simp)
  · split at h
    · exact absurd h (by simp)
    · rename_i copied hchk
      injection h with h
      subst h
      obtain ⟨hcopy, hall⟩ := checkItems_ok items copied hchk
      exact ⟨rfl, by rw [hcopy], hall⟩

/-! ### Claims about the argument model -/

/-- Claim C5: `NewKeyValueArg` returns an error and no object whenever any
item has an empty key, an empty value, or a key or value containing a
character outside the allowlist; no construction path returns an
invalid-but-usable argument. -/
theorem C5_invalid_items_rejected (key : String) (items : List KeyValueArgItem)
    (hbad : ∃ it ∈ items, it.key = "" ∨ it.value = ""
      ∨ (∃ c ∈ it.key.data, validArgChar c = false)
      ∨ (∃ c ∈ it.value.data, validArgChar c = false)) :
    ∃ e, NewKeyValueArg key items = .error e := by
  cases hne : NewKeyValueArg key items with
  | error e => exact ⟨e, rfl⟩
  | ok a =>
    obtain ⟨_, _, hall⟩ := NewKeyValueArg_ok key items a hne
    obtain ⟨it, hmem, hcase⟩ := hbad
    obtain ⟨hk, hv, hvk, hvv⟩ := hall it hmem
    rcases hcase with h | h | h | h
    · exact absurd h hk
    · exact absurd h hv
    · obtain ⟨c, hc, hcf⟩ := h
      have := List.all_eq_true.mp hvk c hc
      rw [hcf] at this
      exact absurd this (by simp)
    · obtain ⟨c, hc, hcf⟩ := h
      have := List.all_eq_true.mp hvv c hc
      rw [hcf] at this
      exact absurd this (by simp)

/-- Witness for C5: an item with an empty value is rejected, as is one whose
value contains a comma. -/
theorem C5_witness :
    (∃ e, NewKeyValueArg "netdev" [⟨"id", ""⟩] = .error e)
    ∧ (∃ e, NewKeyValueArg "netdev" [⟨"id", "a,b"⟩] = .error e) :=
  ⟨C5_invalid_items_rejected "netdev" [⟨"id", ""⟩]
      ⟨⟨"id", ""⟩, by decide, Or.inr (Or.inl rfl)⟩,
    C5_invalid_items_rejected "netdev" [⟨"id", "a,b"⟩]
      ⟨⟨"id", "a,b"⟩, by decide, Or.inr (Or.inr (Or.inr ⟨',', by decide, by decide⟩))⟩⟩

/-- The per-item text the rendering loop writes equals `renderItem`. -/
theorem renderAux_item (it : KeyValueArgItem) :
    it.key ++ (if 0 < it.value.length then "=" ++ it.value else "") = renderItem it := by
  by_cases hv : it.value = ""
  · rw [renderItem, if_pos hv, hv]
    norm_num
  · rw [renderItem, if_neg hv, if_pos (string_length_pos_of_ne_empty it.value hv),
      String.append_assoc]

/-- The comma-prefixed tail rendering: every item preceded by a comma. -/
def commaPrepends : List KeyValueArgItem → String
  | [] => ""
  | it :: rest => "," ++ renderItem it ++ commaPrepends rest

/-- At any nonzero index, the rendering loop produces the comma-prefixed
tail, provided no key is blank. -/
theorem stringValueAux_succ : ∀ (items : List KeyValueArgItem) (i : Nat),
    (∀ it ∈ items, it.key ≠ "") →
    stringValueAux (i + 1) items = commaPrepends items := by
  intro items
  induction items with
  | nil => intro i h; rfl
  | cons it rest ih =>
    intro i h
    have hk : it.key ≠ "" := h it (List.mem_cons_self ..)
    simp only [stringValueAux, if_neg hk, commaPrepends]
    rw [ih (i + 1) (fun x hx => h x (List.mem_cons_of_mem _ hx))]
    rw [if_pos (Nat.succ_ne_zero i), ← renderAux_item it]
    simp [String.append_assoc]

/-- The comma-joined form equals the head item followed by the
comma-prefixed tail. -/
theorem commaJoin_cons (it : KeyValueArgItem) (rest : List KeyValueArgItem) :
    commaJoin (it :: rest) = renderItem it ++ commaPrepends rest := by
  induction rest generalizing it with
  | nil =>
    simp only [commaJoin, commaPrepends]
    exact (String.append_empty (renderItem it)).symm
  | cons r rs ih =>
    simp only [commaJoin, commaPrepends]
    rw [ih r]
    simp [String.append_assoc]

/-- When no key is blank, the rendering loop from index zero produces
exactly the comma-joined form. -/
theorem stringValueAux_zero (items : List KeyValueArgItem)
    (h : ∀ it ∈ items, it.key ≠ "") :
    stringValueAux 0 items = commaJoin items := by
  cases items with
  | nil => rfl
  | cons it rest =>
    have hk : it.key ≠ "" := h it (List.mem_cons_self ..)
    simp only [stringValueAux, if_neg hk]
    rw [stringValueAux_succ rest 0 (fun x hx => h x (List.mem_cons_of_mem _ hx))]
    rw [commaJoin_cons, ← renderAux_item it]
    simp [String.append_assoc]

/-- Claim C6: for every item sequence accepted by `NewKeyValueArg`, the
stored items are an exact copy of the construction-time input — so the
rendering is a function of the construction-time values alone and cannot be
affected by later mutation of the caller's sequence — and `StringValue`
renders exactly the comma-joined form of the items in their original order
(each item as key=value, or key alone when its value is empty); rendering
the same constructed argument twice yields identical output. -/
theorem C6_render_comma_joined (key : String) (items : List KeyValueArgItem) (a : KeyValueArg)
    (h : NewKeyValueArg key items = .ok a) :
    a.items = items
    ∧ a.StringValue = commaJoin items
    ∧ a.StringValue = commaJoin a.items := by
  obtain ⟨hkey, hitems, hall⟩ := NewKeyValueArg_ok key items a h
  have hrender : a.StringValue = commaJoin items := by
    rw [KeyValueArg.StringValue, hitems]
    exact stringValueAux_zero items (fun it hit => (hall it hit).1)
  exact ⟨hitems, hrender, by rw [hitems]; exact hrender⟩

/-- Witness for C6: a concrete two-item argument renders to the exact
comma-joined form. -/
theorem C6_witness :
    NewKeyValueArg "netdev" [⟨"id", "net0"⟩, ⟨"type", "user"⟩]
      = .ok ⟨"netdev", [⟨"id", "net0"⟩, ⟨"type", "user"⟩]⟩
    ∧ KeyValueArg.StringValue ⟨"netdev", [⟨"id", "net0"⟩, ⟨"type", "user"⟩]⟩
      = commaJoin [⟨"id", "net0"⟩, ⟨"type", "user"⟩]
    ∧ commaJoin [⟨"id", "net0"⟩, ⟨"type", "user"⟩] = "id=net0,type=user" :=
  ⟨rfl,
    (C6_render_comma_joined "netdev" [⟨"id", "net0"⟩, ⟨"type", "user"⟩]
      ⟨"netdev", [⟨"id", "net0"⟩, ⟨"type", "user"⟩]⟩ rfl).2.1,
    rfl⟩

/-! ### Claim about runSSHCmd -/

/-- Claim C8: for every command run through `runSSHCmd` with an opened
session, if running the command fails the returned error wraps the
underlying transport error together with the captured standard-error text —
both appear contiguously in the message — and no output bytes are returned;
if it succeeds, the captured standard-output bytes are returned with no
error. -/
theorem C8_wraps_error_with_stderr (c : SSHClientBehavior) (cmd : String)
    (hsess : c.newSessionError = none) :
    (∀ e, c.session.runError = some e →
      runSSHCmd c cmd = .error (wrapErrWithLog e "run cmd" c.session.stderrText)
      ∧ (∃ x y z, (wrapErrWithLog e "run cmd" c.session.stderrText).data
          = x ++ e.data ++ y ++ c.session.stderrText.data ++ z)
      ∧ ∀ out, runSSHCmd c cmd ≠ .ok out)
    ∧ (c.session.runError = none → runSSHCmd c cmd = .ok c.session.stdoutData) := by
  constructor
  · intro e hrun
    have hcmd : runSSHCmd c cmd = .error (wrapErrWithLog e "run cmd" c.session.stderrText) := by
      simp only [runSSHCmd, hsess, hrun]
    refine ⟨hcmd, ?_, ?_⟩
    · refine ⟨"run cmd: ".data, " (log: ".data, ")".data, ?_⟩
      simp [wrapErrWithLog, String.data_append, List.append_assoc]
    · intro out hout
      rw [hcmd] at hout
      exact absurd hout (by simp)
  · intro hrun
    simp only [runSSHCmd, hsess, hrun]

/-- Witness for C8: a concrete failing command and a concrete succeeding
command behave as claimed. -/
theorem C8_witness :
    runSSHCmd ⟨none, ⟨[], "mount: no such device", some "exit status 32"⟩⟩ "mount /dev/vda1"
      = .error (wrapErrWithLog "exit status 32" "run cmd" "mount: no such device")
    ∧ (∃ x y z, (wrapErrWithLog "exit status 32" "run cmd" "mount: no such device").data
        = x ++ "exit status 32".data ++ y ++ "mount: no such device".data ++ z)
    ∧ runSSHCmd ⟨none, ⟨[104, 105], "", none⟩⟩ "echo hi" = .ok [104, 105] :=
  ⟨((C8_wraps_error_with_stderr ⟨none, ⟨[], "mount: no such device", some "exit status 32"⟩⟩
      "mount /dev/vda1" rfl).1 "exit status 32" rfl).1,
    ((C8_wraps_error_with_stderr ⟨none, ⟨[], "mount: no such device", some "exit status 32"⟩⟩
      "mount /dev/vda1" rfl).1 "exit status 32" rfl).2.1,
    (C8_wraps_error_with_stderr ⟨none, ⟨[104, 105], "", none⟩⟩ "echo hi" rfl).2 rfl⟩

end Linsk
